import Mathlib

/-!
Verification of the applicator job tracker core: the record store, the
dedup/upsert engine, the email reconciliation pass and the schema migration,
embedded from `browser-applicator/agentmail_tracker_sync.py`,
`browser-applicator/apply.py` and `tracker/migrate_tracker.py`.

Modelling conventions:
* JSON values are modelled by `JVal`; the code only ever constructs
  null, booleans, strings, numbers, empty arrays, objects of booleans
  (`prepChecklist`) and objects of integers (`application_tokens`), so the
  value universe is kept flat.
* A record (Python dict) is an association list `Job`; `getKey`/`setKey`
  mirror dict read and dict assignment (update in place, new keys appended,
  as Python dicts preserve insertion order).
* Nondeterministic environment inputs (uuid generation, wall-clock
  timestamps, date parsing in the `datetime` library, and the regex-based
  role extraction) are passed in as explicit parameters, so theorems
  quantify over them.
* Python string methods are re-implemented over `List Char` (ASCII
  semantics, which covers every string the code manipulates).
-/

set_option autoImplicit false

namespace Applicator

/-- JSON value universe used by the tracker store. -/
inductive JVal where
  | null
  | bool (b : Bool)
  | str (s : String)
  | int (n : Int)
  | strArr (xs : List String)
  | boolObj (fs : List (String × Bool))
  | intObj (fs : List (String × Int))
  deriving DecidableEq

/-- A JSON object / Python dict, as an association list in insertion order. -/
abbrev Job := List (String × JVal)

/-- Dict read: first binding of the key, `none` when absent. -/
def getKey (j : Job) (k : String) : Option JVal :=
  match j with
  | [] => none
  | (k', v') :: rest => if k' = k then some v' else getKey rest k

/-- Dict assignment `j[k] = v`: update the binding in place when the key is
present, append at the end otherwise (Python dict insertion-order
semantics). -/
def setKey (j : Job) (k : String) (v : JVal) : Job :=
  match j with
  | [] => [(k, v)]
  | (k', v') :: rest => if k' = k then (k, v) :: rest else (k', v') :: setKey rest k v

/-- Read a field expected to be a string, with a default for an absent
field, mirroring `job.get(k, default)` on string-valued fields. (Python
would raise on a present non-string value where the result is used as a
string; theorems only rely on this function at string-typed fields.) -/
def getStrD (j : Job) (k : String) (d : String) : String :=
  match getKey j k with
  | some (JVal.str s) => s
  | _ => d

/-- Sequence of dict assignments, leftmost first. -/
def setKeys (j : Job) (kvs : List (String × JVal)) : Job :=
  kvs.foldl (fun a p => setKey a p.1 p.2) j

/-- Lower-case an ASCII character, as `str.lower` does on ASCII input. -/
def lcChar (c : Char) : Char :=
  if 65 ≤ c.toNat ∧ c.toNat ≤ 90 then Char.ofNat (c.toNat + 32) else c

/-- Upper-case an ASCII character. -/
def ucChar (c : Char) : Char :=
  if 97 ≤ c.toNat ∧ c.toNat ≤ 122 then Char.ofNat (c.toNat - 32) else c

/-- Python `str.lower()` (ASCII). -/
def pyLower (s : String) : String := ⟨s.data.map lcChar⟩

/-- Python substring test `a in b`. -/
def strIn (a b : String) : Bool := decide (a.data <:+: b.data)

/-- Whitespace recognised by Python `str.strip()`. -/
def isWS (c : Char) : Bool := c == ' ' || c == '\t' || c == '\n' || c == '\r'

/-- Python `str.strip()`: drop leading and trailing whitespace. -/
def pyStrip (s : String) : String :=
  ⟨((s.data.dropWhile isWS).reverse.dropWhile isWS).reverse⟩

/-- Bool test that `pat` starts the list. -/
def leadsWith : List Char → List Char → Bool
  | [], _ => true
  | _ :: _, [] => false
  | a :: as, b :: bs => a == b && leadsWith as bs

/-- Worker for `pyReplace`; the fuel argument (instantiated with the input
length) only makes the left-to-right scan structurally recursive. -/
def replaceGo (pat rep : List Char) : Nat → List Char → List Char
  | _, [] => []
  | 0, l => l
  | fuel + 1, c :: rest =>
    if pat ≠ [] ∧ leadsWith pat (c :: rest) then
      rep ++ replaceGo pat rep fuel ((c :: rest).drop pat.length)
    else
      c :: replaceGo pat rep fuel rest

/-- Python `s.replace(pat, rep)`: replace every non-overlapping occurrence,
scanning left to right (for nonempty `pat`, the only way the code uses it). -/
def pyReplace (s pat rep : String) : String :=
  ⟨replaceGo pat.data rep.data s.data.length s.data⟩

/-- Python `s[:n]`. -/
def strTake (s : String) (n : Nat) : String := ⟨s.data.take n⟩

/-- Worker for `pyTitle`: the flag records whether the previous character
was a letter. -/
def pyTitleGo : Bool → List Char → List Char
  | _, [] => []
  | prevAlpha, c :: rest =>
    (if c.isAlpha then (if prevAlpha then lcChar c else ucChar c) else c)
      :: pyTitleGo c.isAlpha rest

/-- Python `str.title()` (ASCII): capitalise the first letter of every
alphabetic run, lower-case the rest. -/
def pyTitle (s : String) : String := ⟨pyTitleGo false s.data⟩

/-- Single apostrophe character, kept out of string literals. -/
def apos : String := ⟨[Char.ofNat 39]⟩

/-- The white-check-mark character U+2705 used in verification notes. -/
def checkMark : String := ⟨[Char.ofNat 9989]⟩

/-- The check character U+2713 used in `complete_task` notes. -/
def checkSign : String := ⟨[Char.ofNat 10003]⟩

/-- In-memory tracker store, the value of `jobs.json`: the `settings`
object, its `active_tasks` sub-object (modelled as a separate field;
`none` when the `active_tasks` key is absent, each task being itself a
flat JSON object), and the `jobs` list. -/
structure Tracker where
  settings : List (String × JVal)
  activeTasks : Option (List (String × Job))
  jobs : List Job
  deriving DecidableEq

/-- Possible states of a JSON store file as seen by a loader: missing,
unreadable (IOError), undecodable (JSONDecodeError), or readable with a
parsed value. -/
inductive StoreFile where
  | absent
  | unreadable
  | malformed
  | parsed (t : Tracker)
  deriving DecidableEq

/-- Fresh values drawn from the environment by one merge of the email
reconciler: the generated uuid, the current UTC timestamp, and the
`datetime`-derived `date_applied` string for the new-record branch. -/
structure MergeEnv where
  freshId : String
  now : String
  dateApplied : String
  deriving DecidableEq

/-- One fetched mail thread, with the fields the sync pass reads:
`thread_id`, first sender, subject, preview and timestamp. -/
structure MailThread where
  thread_id : String
  sender : String
  subject : String
  preview : String
  timestamp : String
  deriving DecidableEq

/-- Embeds `load_tracker_jobs` of `agentmail_tracker_sync.py`: a missing,
unreadable or malformed `jobs.json` yields the default
`{"settings": {"followUpDays": 2}, "jobs": []}`; otherwise the parsed
content. -/
def load_tracker_jobs : StoreFile → Tracker
  | StoreFile.parsed t => t
  | _ => ⟨[("followUpDays", JVal.int 2)], none, []⟩

/-- Embeds `extract_company_from_sender`: text before the first angle
bracket, with a fixed list of suffixes removed, trimmed. -/
def extract_company_from_sender (sender : String) : String :=
  let s := pyStrip ⟨sender.data.takeWhile (· ≠ '<')⟩
  let s := pyReplace s " Hiring Team" ""
  let s := pyReplace s " Recruiting Team" ""
  let s := pyReplace s " Recruiting" ""
  let s := pyReplace s "The " ""
  let s := pyReplace s " Team" ""
  pyStrip s

/-- Confirmation phrases recognised by `is_confirmation_email`. -/
def confirmation_phrases : List String :=
  ["thank you for applying",
   "thanks for applying",
   "received your application",
   "we" ++ apos ++ "ve received your application",
   "application received",
   "thank you for your application",
   "thanks for your application",
   "application has been received",
   "appreciate your interest"]

/-- Embeds `is_confirmation_email`: the lower-cased subject and preview,
joined by a space, contain one of the fixed confirmation phrases. -/
def is_confirmation_email (subject preview : String) : Bool :=
  let text := pyLower subject ++ " " ++ pyLower preview
  confirmation_phrases.any (fun p => strIn p text)

/-- Normalisation used by `job_exists_in_tracker`: lower-case, then strip
spaces and hyphens (the source does not strip underscores). -/
def normalize_ct (s : String) : String :=
  pyReplace (pyReplace (pyLower s) " " "") "-" ""

/-- Embeds `job_exists_in_tracker`: fuzzy company equality after
`normalize_ct`, and, when a role is supplied, substring containment of the
normalised roles in either direction. -/
def job_exists_in_tracker (td : Tracker) (company : String) (role : Option String) : Bool :=
  let company_lower := normalize_ct company
  td.jobs.any (fun job =>
    let job_company := normalize_ct (getStrD job "company" "")
    decide (company_lower = job_company) &&
      (match role with
       | some r =>
         let job_role := normalize_ct (getStrD job "role" "")
         let role_lower := normalize_ct r
         strIn role_lower job_role || strIn job_role role_lower
       | none => true))

/-- Exact-match predicate of the search loop in `update_or_add_job`:
`job["company"].lower().strip() == company.lower().strip()` and the same
for the role. -/
def matches_exact (job : Job) (company role : String) : Bool :=
  decide (pyStrip (pyLower (getStrD job "company" "")) = pyStrip (pyLower company)) &&
  decide (pyStrip (pyLower (getStrD job "role" "")) = pyStrip (pyLower role))

/-- Verification note appended by `update_or_add_job` on a match. -/
def verification_note (timestamp : String) : String :=
  "\n" ++ checkMark ++ " Email confirmation received on " ++ strTake timestamp 10

/-- Update branch of `update_or_add_job`: set `email_verified` and
`updated_at`, and append the verification note to `notes` (stripped)
unless it is already present. -/
def apply_verification (job : Job) (timestamp now : String) : Job :=
  let job := setKey job "email_verified" (JVal.bool true)
  let job := setKey job "updated_at" (JVal.str now)
  let existing_notes := getStrD job "notes" ""
  let note := verification_note timestamp
  if strIn note existing_notes then job
  else setKey job "notes" (JVal.str (pyStrip (existing_notes ++ note)))

/-- Search loop of `update_or_add_job`: apply the verification update to
the first record matching `matches_exact`, `none` when no record matches. -/
def update_first (company role timestamp now : String) : List Job → Option (List Job)
  | [] => none
  | job :: rest =>
    if matches_exact job company role then
      some (apply_verification job timestamp now :: rest)
    else
      (update_first company role timestamp now rest).map (job :: ·)

/-- New record built by `update_or_add_job` when no existing record
matches, with the unified schema defaults; `env` supplies the generated id,
the current timestamp and the parsed `date_applied`. -/
def sync_new_job (company role timestamp : String) (env : MergeEnv) : Job :=
  [("id", JVal.str env.freshId),
   ("company", JVal.str company),
   ("role", JVal.str role),
   ("status", JVal.str "applied"),
   ("interview_stage", JVal.null),
   ("applied_at", JVal.str timestamp),
   ("dateApplied", JVal.str env.dateApplied),
   ("nextAction", JVal.str "Wait for response"),
   ("jobUrl", JVal.null),
   ("salaryMin", JVal.null),
   ("salaryMax", JVal.null),
   ("recruiterName", JVal.null),
   ("recruiterEmail", JVal.null),
   ("hiringManagerName", JVal.null),
   ("hiringManagerEmail", JVal.null),
   ("referralContact", JVal.null),
   ("referralStatus", JVal.str "none"),
   ("interviews", JVal.strArr []),
   ("lastActivityDate", JVal.str env.dateApplied),
   ("followUpBy", JVal.null),
   ("notes", JVal.str ("Auto-added from AgentMail confirmation. Email verified on "
       ++ env.dateApplied ++ ".")),
   ("companyResearch", JVal.null),
   ("prepChecklist", JVal.boolObj
      [("companyResearch", false), ("starStories", false),
       ("questionsReady", false), ("technicalPrep", false)]),
   ("offer", JVal.null),
   ("email_verified", JVal.bool true),
   ("browser_use_task_id", JVal.null),
   ("audit_trail", JVal.strArr []),
   ("synced", JVal.bool true),
   ("created_at", JVal.str timestamp),
   ("updated_at", JVal.str timestamp)]

/-- Embeds `update_or_add_job`: update the first record whose company and
role are exactly equal after lower-casing and trimming, returning
`"updated"`; otherwise insert `sync_new_job` at the front of the jobs list
and return `"added"`. -/
def update_or_add_job (td : Tracker) (company role timestamp : String) (env : MergeEnv) :
    Tracker × String :=
  match update_first company role timestamp env.now td.jobs with
  | some jobs' => ({ td with jobs := jobs' }, "updated")
  | none => ({ td with jobs := sync_new_job company role timestamp env :: td.jobs }, "added")

/-- Accumulator of the per-thread loop in `sync_agentmail_to_tracker`:
the in-memory tracker, the `new_threads` list and the `new_jobs_added`
counter. -/
structure PassState where
  tracker : Tracker
  newThreads : List String
  added : Nat
  deriving DecidableEq

/-- One iteration of the thread loop in `sync_agentmail_to_tracker`: skip
threads already processed, skip non-confirmation threads, otherwise merge
via `update_or_add_job`, count the merge and record the thread id.
`extractRole` abstracts the regex-based `extract_role_from_preview`, and
`env` the per-merge fresh values (indexed by the number of merges done). -/
def sync_step (extractRole : String → String → String) (env : Nat → MergeEnv)
    (processed : List String) (st : PassState) (t : MailThread) : PassState :=
  if t.thread_id ∈ processed then st
  else if ¬ is_confirmation_email t.subject t.preview then st
  else
    let company := extract_company_from_sender t.sender
    let role := extractRole t.subject t.preview
    let merged := update_or_add_job st.tracker company role t.timestamp (env st.newThreads.length)
    { tracker := merged.1, newThreads := st.newThreads ++ [t.thread_id], added := st.added + 1 }

/-- Result of one reconciliation pass: the store file content, the
processed-thread set (as a list, membership being what matters), and the
`new_jobs_added` return value. -/
structure SyncOutcome where
  tracker : Tracker
  processed : List String
  newJobsAdded : Nat
  deriving DecidableEq

/-- Settings write performed by `save_sync_state` on the tracker file:
`settings["last_email_sync"] = last_sync` on the on-disk content. -/
def set_last_email_sync (td : Tracker) (lastSync : String) : Tracker :=
  { td with settings := setKey td.settings "last_email_sync" (JVal.str lastSync) }

/-- Embeds one pass of `sync_agentmail_to_tracker` over an already fetched
thread list: fold the thread loop, then, when any thread was merged, save
the enlarged processed set (whose save also stamps `last_email_sync` on
the disk copy) and save the mutated tracker (which overwrites that stamp,
as in the source, where `save_tracker_jobs(tracker_data)` runs after
`save_sync_state`). -/
def sync_agentmail_to_tracker (extractRole : String → String → String)
    (env : Nat → MergeEnv) (lastSync : String) (threads : List MailThread)
    (disk : Tracker) (processed : List String) : SyncOutcome :=
  let st := threads.foldl (sync_step extractRole env processed) ⟨disk, [], 0⟩
  let processed' := if st.newThreads = [] then processed else processed ++ st.newThreads
  let disk1 := if st.newThreads = [] then disk else set_last_email_sync disk lastSync
  let disk2 := if st.added > 0 then st.tracker else disk1
  ⟨disk2, processed', st.added⟩

/-- Embeds `load_tracker` of `apply.py`: a missing, unreadable or
malformed `jobs.json` yields the default
`{"settings": {"followUpDays": 2, "active_tasks": {}}, "jobs": []}`;
otherwise the parsed content. -/
def load_tracker : StoreFile → Tracker
  | StoreFile.parsed t => t
  | _ => ⟨[("followUpDays", JVal.int 2)], some [], []⟩

/-- Embeds `save_tracker` of `apply.py`: writing succeeds and returns
`True`, or the dump raises `IOError` (the `ioOk = false` environment), the
handler logs a warning and returns `False`. -/
def save_tracker (_td : Tracker) (ioOk : Bool) : Bool := ioOk

/-- Fresh values drawn from the environment by one `complete_task` call:
the generated uuid, the date string for today, and the `applied_at` ISO
timestamp. -/
structure CompleteEnv where
  freshId : String
  today : String
  appliedAt : String
  deriving DecidableEq

/-- Company display string built by `complete_task`:
`company.replace("-", " ").replace("_", " ").title()`. -/
def display_company (company : String) : String :=
  pyTitle (pyReplace (pyReplace company "-" " ") "_" " ")

/-- Notes string built by `complete_task` for a new record. -/
def complete_note (today : String) (emailVerified : Bool) (agentResult : Option String) :
    String :=
  pyStrip ("Applied via browser-applicator on " ++ today ++ ". Email "
    ++ (if emailVerified then "verified " ++ checkSign else "not yet verified")
    ++ ".\n\n"
    ++ (match agentResult with | some s => strTake s 200 | none => ""))

/-- Exact-URL membership test of `complete_task`:
`job_url in [job.get("jobUrl", "") for job in jobs]`. -/
def url_in_jobs (jobs : List Job) (jobUrl : String) : Bool :=
  jobs.any (fun job => decide ((getKey job "jobUrl").getD (JVal.str "") = JVal.str jobUrl))

/-- New record built by `complete_task` with the unified schema; the float
`cost` is modelled as an integer (no arithmetic on it is verified). -/
def complete_new_job (taskId company role jobUrl : String) (agentResult : Option String)
    (cost inputTokens outputTokens : Int) (emailVerified : Bool) (env : CompleteEnv) : Job :=
  [("id", JVal.str env.freshId),
   ("company", JVal.str (display_company company)),
   ("role", JVal.str role),
   ("status", JVal.str "applied"),
   ("interview_stage", JVal.null),
   ("applied_at", JVal.str env.appliedAt),
   ("dateApplied", JVal.str env.today),
   ("lastActivityDate", JVal.str env.today),
   ("followUpBy", JVal.null),
   ("jobUrl", JVal.str jobUrl),
   ("salaryMin", JVal.null),
   ("salaryMax", JVal.null),
   ("recruiterName", JVal.null),
   ("recruiterEmail", JVal.null),
   ("hiringManagerName", JVal.null),
   ("hiringManagerEmail", JVal.null),
   ("referralContact", JVal.null),
   ("referralStatus", JVal.str "none"),
   ("interviews", JVal.strArr []),
   ("notes", JVal.str (complete_note env.today emailVerified agentResult)),
   ("companyResearch", JVal.null),
   ("prepChecklist", JVal.boolObj
      [("companyResearch", false), ("starStories", false),
       ("questionsReady", false), ("technicalPrep", false)]),
   ("offer", JVal.null),
   ("nextAction", JVal.str "Wait for response"),
   ("email_verified", JVal.bool emailVerified),
   ("browser_use_task_id", JVal.str taskId),
   ("application_cost", JVal.int cost),
   ("application_tokens", JVal.intObj [("input", inputTokens), ("output", outputTokens)]),
   ("audit_trail", JVal.strArr []),
   ("synced", JVal.bool true),
   ("created_at", JVal.str env.appliedAt),
   ("updated_at", JVal.str env.appliedAt)]

/-- Embeds `complete_task` of `apply.py`: drop the task from
`active_tasks` when present; when some record already carries `job_url`,
save and return `True`; otherwise insert the new record at the front of
the jobs list, save, and return `True`. The result of `save_tracker` is
discarded, exactly as in the source, and the function returns `True` on
every path. -/
def complete_task (td : Tracker) (taskId company role jobUrl : String)
    (agentResult : Option String) (cost inputTokens outputTokens : Int)
    (emailVerified : Bool) (env : CompleteEnv) (ioOk : Bool) : Tracker × Bool :=
  let tasks := td.activeTasks.getD []
  let td1 := if tasks.any (fun p => p.1 = taskId)
    then { td with activeTasks := some (tasks.filter (fun p => ¬ p.1 = taskId)) }
    else td
  if url_in_jobs td1.jobs jobUrl then
    let _saved := save_tracker td1 ioOk
    (td1, true)
  else
    let newJob := complete_new_job taskId company role jobUrl agentResult
      cost inputTokens outputTokens emailVerified env
    let td2 := { td1 with jobs := newJob :: td1.jobs }
    let _saved := save_tracker td2 ioOk
    (td2, true)

/-- Legacy interview sub-statuses remapped by the migration. -/
def legacy_interview_statuses : List String :=
  ["recruiter_screen", "hiring_manager", "panel_onsite"]

/-- Test of the first branch of `transform_job`:
`job["status"] in ["recruiter_screen", "hiring_manager", "panel_onsite"]`. -/
def legacy_status (job : Job) : Bool :=
  match getKey job "status" with
  | some (JVal.str s) => decide (s ∈ legacy_interview_statuses)
  | _ => false

/-- Value of `date_applied` in `transform_job`:
`job.get("dateApplied", today)`, where `today` abstracts
`datetime.utcnow().strftime` of the current date. -/
def migrate_date_applied (job : Job) (today : String) : String :=
  match getKey job "dateApplied" with
  | some (JVal.str s) => s
  | _ => today

/-- Value of `last_activity` in `transform_job`:
`job.get("lastActivityDate", date_applied)`. -/
def migrate_last_activity (job : Job) (today : String) : String :=
  match getKey job "lastActivityDate" with
  | some (JVal.str s) => s
  | _ => migrate_date_applied job today

/-- Final value of `email_verified` in `transform_job`: `False`, flipped
to `True` when the legacy notes carry one of the two markers. -/
def migrate_email_verified (job : Job) : Bool :=
  strIn "Auto-added from AgentMail" (getStrD job "notes" "")
    || strIn "Email verified" (getStrD job "notes" "")

/-- Field assignments performed by `transform_job` of
`migrate_tracker.py`, in execution order, with every right-hand side read
from the pre-assignment record (the source reads `status`, `dateApplied`,
`lastActivityDate` and `notes`, none of which it has overwritten at the
point of the read); the two writes to `email_verified` are collapsed into
the final value. -/
def transform_fields (job : Job) (today : String) : List (String × JVal) :=
  (if legacy_status job then
    [("interview_stage", (getKey job "status").getD JVal.null),
     ("status", JVal.str "interviewing")]
   else
    [("interview_stage", JVal.null)])
  ++ [("applied_at", JVal.str (migrate_date_applied job today ++ "T00:00:00Z")),
      ("browser_use_task_id", JVal.null),
      ("browser_use_status", JVal.null),
      ("audit_trail", JVal.strArr []),
      ("synced", JVal.bool true),
      ("created_at", JVal.str (migrate_date_applied job today ++ "T00:00:00Z")),
      ("updated_at", JVal.str (migrate_last_activity job today ++ "T00:00:00Z")),
      ("email_verified", JVal.bool (migrate_email_verified job))]

/-- Embeds `transform_job` of `migrate_tracker.py` as the corresponding
sequence of dict assignments. (Python raises `KeyError` when `status` is
absent and `TypeError` when a read field holds a non-string; theorems
assume records on which the source does not raise.) -/
def transform_job (job : Job) (today : String) : Job :=
  setKeys job (transform_fields job today)

/-- Embeds `migrate_data` of `migrate_tracker.py` at the value level:
ensure `settings["active_tasks"]` exists and transform every record in
place. -/
def migrate_data (td : Tracker) (today : String) : Tracker :=
  { td with activeTasks := some (td.activeTasks.getD []),
            jobs := td.jobs.map (fun j => transform_job j today) }

/-- Normalisation in the words of the spec for the fuzzy company/role
match: lower-case and strip spaces, hyphens **and underscores** (the
`normalize_ct` of the source does not strip underscores); used to state the
claim about the dedup rule as written. -/
def spec_normalize (s : String) : String :=
  pyReplace (pyReplace (pyReplace (pyLower s) " " "") "-" "") "_" ""

/-- Well-typedness of an optional string field: absent or string-valued
(Python raises on other shapes at the reads the migration performs). -/
def opt_str_field (j : Job) (k : String) : Bool :=
  match getKey j k with
  | none => true
  | some (JVal.str _) => true
  | some _ => false

/-- New-schema fields freshly written by the migration transform
(besides `status`). -/
def migration_written_fields : List String :=
  ["interview_stage", "applied_at", "browser_use_task_id", "browser_use_status",
   "audit_trail", "synced", "created_at", "updated_at", "email_verified"]

/-- A record in the legacy schema as the migration expects it: a
string-valued `status` other than `interviewing`, none of the new-schema
fields present yet, and string-or-absent date and notes fields. -/
def legacy_record (j : Job) : Bool :=
  (match getKey j "status" with
   | some (JVal.str s) => decide (s ≠ "interviewing")
   | _ => false)
  && migration_written_fields.all (fun k => (getKey j k).isNone)
  && opt_str_field j "dateApplied"
  && opt_str_field j "lastActivityDate"
  && opt_str_field j "notes"

/-- Stored record of the dedup example of the spec: company `acme-inc`, role
`Senior Product Manager`. -/
def acme_job : Job :=
  [("company", JVal.str "acme-inc"), ("role", JVal.str "Senior Product Manager")]

/-- One-record store holding `acme_job`. -/
def acme_tracker : Tracker := ⟨[], none, [acme_job]⟩

/-- Record whose notes begin with whitespace, for the notes-preservation
analysis of the merge update. -/
def ws_notes_job : Job :=
  [("company", JVal.str "Acme"), ("role", JVal.str "PM"), ("notes", JVal.str " x")]

/-- One-record store holding `ws_notes_job`. -/
def ws_notes_tracker : Tracker := ⟨[], none, [ws_notes_job]⟩

/-- Record with a non-interviewing status that already carries an
`interview_stage` value, for the migration field-preservation analysis. -/
def stage_field_job : Job :=
  [("status", JVal.str "applied"), ("interview_stage", JVal.str "stage-x"),
   ("dateApplied", JVal.str "2025-01-01")]

/-- One-record store holding `stage_field_job`. -/
def stage_field_tracker : Tracker := ⟨[], none, [stage_field_job]⟩

/-- Record in the legacy `recruiter_screen` sub-status, for the migration
re-run analysis. -/
def recruiter_job : Job :=
  [("status", JVal.str "recruiter_screen"), ("dateApplied", JVal.str "2025-01-01")]

/-- Non-confirmation mail thread, for the processed-set analysis. -/
def chatter_thread : MailThread :=
  ⟨"t1", "Somebody <x@y.z>", "hello", "nothing relevant here", "2025-05-05T09:00:00Z"⟩

/-- Confirmation mail thread, for witnessing the processed-set property. -/
def confirm_thread : MailThread :=
  ⟨"t2", "Acme Hiring Team <no-reply@acme.io>", "Thank you for applying",
   "We received it", "2025-05-05T09:00:00Z"⟩

/-- Record carrying a job URL, for exercising the exact-URL match. -/
def url_job : Job :=
  [("company", JVal.str "Globex"), ("role", JVal.str "PM"),
   ("jobUrl", JVal.str "https://x.com/1")]

/-- One-record store holding `url_job`. -/
def url_tracker : Tracker := ⟨[], none, [url_job]⟩

/-- Record in the legacy `panel_onsite` sub-status, for witnessing the
migration transform. -/
def panel_job : Job := [("status", JVal.str "panel_onsite")]

/-- One-record store holding `panel_job`. -/
def panel_tracker : Tracker := ⟨[], none, [panel_job]⟩

/-- Record in the plain `applied` status, for witnessing migration
re-run stability. -/
def applied_job : Job :=
  [("status", JVal.str "applied"), ("dateApplied", JVal.str "2025-01-01")]

/-- Role extractor instance used in concrete scenarios (the regex
fallback value of the source). -/
def default_role_extractor : String → String → String := fun _ _ => "Product Manager"

/-- Merge environment instance used in concrete scenarios. -/
def sample_env : Nat → MergeEnv :=
  fun _ => ⟨"0A1B", "2025-05-05T09:10:00Z", "2025-05-05"⟩

theorem getKey_setKey_same (j : Job) (k : String) (v : JVal) :
    getKey (setKey j k v) k = some v := by
  induction j with
  | nil => simp [setKey, getKey]
  | cons p rest ih =>
    by_cases h : p.1 = k
    · simp [setKey, getKey, h]
    · simp [setKey, getKey, h, ih]

theorem getKey_setKey_diff (j : Job) (k k' : String) (v : JVal) (hne : k' ≠ k) :
    getKey (setKey j k v) k' = getKey j k' := by
  induction j with
  | nil => simp [setKey, getKey, Ne.symm hne]
  | cons p rest ih =>
    obtain ⟨a, b⟩ := p
    by_cases h : a = k
    · subst h
      simp [setKey, getKey, Ne.symm hne]
    · simp only [setKey, if_neg h]
      by_cases h2 : a = k'
      · simp [getKey, h2]
      · simp [getKey, h2, ih]

theorem setKey_same_val (j : Job) (k : String) (v : JVal) (h : getKey j k = some v) :
    setKey j k v = j := by
  induction j with
  | nil => simp [getKey] at h
  | cons p rest ih =>
    obtain ⟨a, b⟩ := p
    by_cases hk : a = k
    · subst hk
      simp [getKey] at h
      simp [setKey, h]
    · simp [getKey, hk] at h
      simp [setKey, hk, ih h]

theorem getKey_setKeys_not_mem (kvs : List (String × JVal)) (j : Job) (k : String)
    (h : ∀ p ∈ kvs, p.1 ≠ k) : getKey (setKeys j kvs) k = getKey j k := by
  induction kvs generalizing j with
  | nil => simp [setKeys]
  | cons q rest ih =>
    have hq : q.1 ≠ k := h q (List.mem_cons_self q rest)
    have hrest : ∀ p ∈ rest, p.1 ≠ k := fun p hp => h p (List.mem_cons_of_mem q hp)
    simp only [setKeys, List.foldl_cons]
    rw [show List.foldl (fun a p => setKey a p.1 p.2) (setKey j q.1 q.2) rest
          = setKeys (setKey j q.1 q.2) rest from rfl,
        ih (setKey j q.1 q.2) hrest, getKey_setKey_diff _ _ _ _ (Ne.symm hq)]

theorem getKey_setKeys_mem (kvs : List (String × JVal)) (j : Job) (k : String) (v : JVal)
    (hnd : (kvs.map Prod.fst).Nodup) (h : (k, v) ∈ kvs) :
    getKey (setKeys j kvs) k = some v := by
  induction kvs generalizing j with
  | nil => simp at h
  | cons q rest ih =>
    simp only [List.map_cons, List.nodup_cons] at hnd
    simp only [setKeys, List.foldl_cons]
    rw [show List.foldl (fun a p => setKey a p.1 p.2) (setKey j q.1 q.2) rest
          = setKeys (setKey j q.1 q.2) rest from rfl]
    rcases List.mem_cons.mp h with heq | hmem
    · have hk : q.1 = k := by rw [← heq]
      have hnotin : ∀ p ∈ rest, p.1 ≠ k := by
        intro p hp hpk
        exact hnd.1 (hk ▸ hpk ▸ List.mem_map_of_mem Prod.fst hp)
      rw [getKey_setKeys_not_mem rest _ _ hnotin, ← heq, getKey_setKey_same]
    · exact ih _ hnd.2 hmem

theorem setKeys_fix (kvs : List (String × JVal)) (j : Job)
    (h : ∀ p ∈ kvs, getKey j p.1 = some p.2) : setKeys j kvs = j := by
  induction kvs with
  | nil => rfl
  | cons q rest ih =>
    simp only [setKeys, List.foldl_cons]
    rw [setKey_same_val j q.1 q.2 (h q (List.mem_cons_self q rest))]
    exact ih (fun p hp => h p (List.mem_cons_of_mem q hp))

theorem update_first_length (company role timestamp now : String) (jobs l : List Job)
    (h : update_first company role timestamp now jobs = some l) :
    l.length = jobs.length := by
  induction jobs generalizing l with
  | nil => simp [update_first] at h
  | cons j rest ih =>
    by_cases hm : matches_exact j company role
    · simp [update_first, hm] at h
      simp [← h]
    · simp [update_first, hm] at h
      obtain ⟨l', hl', rfl⟩ := h
      simp [ih l' hl']

theorem update_first_isSome (company role timestamp now : String) (jobs : List Job)
    (h : ∃ j ∈ jobs, matches_exact j company role = true) :
    ∃ l, update_first company role timestamp now jobs = some l := by
  induction jobs with
  | nil => simp at h
  | cons j rest ih =>
    by_cases hm : matches_exact j company role
    · exact ⟨apply_verification j timestamp now :: rest, by simp [update_first, hm]⟩
    · obtain ⟨j', hj', hmj'⟩ := h
      rcases List.mem_cons.mp hj' with rfl | hmem
      · exact absurd hmj' hm
      · obtain ⟨l, hl⟩ := ih ⟨j', hmem, hmj'⟩
        exact ⟨j :: l, by simp [update_first, hm, hl]⟩

theorem update_first_none (company role timestamp now : String) (jobs : List Job)
    (h : ∀ j ∈ jobs, matches_exact j company role = false) :
    update_first company role timestamp now jobs = none := by
  induction jobs with
  | nil => rfl
  | cons j rest ih =>
    have hj := h j (List.mem_cons_self j rest)
    simp [update_first, hj, ih (fun j' hj' => h j' (List.mem_cons_of_mem j hj'))]

theorem update_first_split (company role timestamp now : String) (pre post : List Job)
    (j : Job) (hpre : ∀ j' ∈ pre, matches_exact j' company role = false)
    (hj : matches_exact j company role = true) :
    update_first company role timestamp now (pre ++ j :: post)
      = some (pre ++ apply_verification j timestamp now :: post) := by
  induction pre with
  | nil => simp [update_first, hj]
  | cons p rest ih =>
    have hp := hpre p (List.mem_cons_self p rest)
    simp [update_first, hp, ih (fun j' hj' => hpre j' (List.mem_cons_of_mem p hj'))]

/-- Claim C7: loading the store is total: on a missing, unreadable or
malformed store file both loaders return a fresh empty collection with
their default settings instead of raising. -/
theorem claim7_load_never_raises (fs : StoreFile) (h : ∀ t, fs ≠ StoreFile.parsed t) :
    load_tracker fs = ⟨[("followUpDays", JVal.int 2)], some [], []⟩
    ∧ load_tracker_jobs fs = ⟨[("followUpDays", JVal.int 2)], none, []⟩ := by
  cases fs with
  | absent => exact ⟨rfl, rfl⟩
  | unreadable => exact ⟨rfl, rfl⟩
  | malformed => exact ⟨rfl, rfl⟩
  | parsed t => exact absurd rfl (h t)

/-- Witness for C7 at the malformed-file state. -/
theorem claim7_load_never_raises_witness :
    load_tracker StoreFile.malformed = ⟨[("followUpDays", JVal.int 2)], some [], []⟩
    ∧ load_tracker_jobs StoreFile.malformed = ⟨[("followUpDays", JVal.int 2)], none, []⟩ :=
  claim7_load_never_raises StoreFile.malformed (fun _ h => by cases h)

/-- Claim C6 (the code masks the failure): when persisting the collection
fails with an I/O error, `save_tracker` itself reports the failure
(returns `False`), but `complete_task` discards that result and still
returns `True`, i.e. reports success to its caller. -/
theorem claim6_save_failure_masked (td : Tracker) (taskId company role jobUrl : String)
    (agentResult : Option String) (cost inputTokens outputTokens : Int)
    (emailVerified : Bool) (env : CompleteEnv) :
    save_tracker td false = false
    ∧ (complete_task td taskId company role jobUrl agentResult cost inputTokens
        outputTokens emailVerified env false).2 = true := by
  refine ⟨rfl, ?_⟩
  simp only [complete_task]
  split <;> split <;> rfl

/-- Claim C1 counterexample: on the dedup example given by the spec, the claimed
hypothesis holds (companies equal after the normalisation of the spec, roles in
containment — indeed `job_exists_in_tracker` classifies the pair as a
match), yet the upsert `update_or_add_job` does not match: it returns
`"added"` and inserts a second record. -/
theorem claim1_counterexample :
    spec_normalize "Acme Inc" = spec_normalize "acme-inc"
    ∧ strIn (spec_normalize "Product Manager") (spec_normalize "Senior Product Manager") = true
    ∧ job_exists_in_tracker acme_tracker "Acme Inc" (some "Product Manager") = true
    ∧ (update_or_add_job acme_tracker "Acme Inc" "Product Manager"
        "2025-06-01T12:00:00Z" ⟨"0A1B", "2025-06-01T12:05:00Z", "2025-06-01"⟩).2 = "added"
    ∧ (update_or_add_job acme_tracker "Acme Inc" "Product Manager"
        "2025-06-01T12:00:00Z" ⟨"0A1B", "2025-06-01T12:05:00Z", "2025-06-01"⟩).1.jobs.length
        = 2 := by
  decide

/-- Claim C1 as amended: the upsert matches an existing record exactly
when the company and role of some record equal the supplied ones after
lower-casing and trimming; in that case it returns `"updated"` and does
not insert a new record. -/
theorem claim1_upsert_exact_match (td : Tracker) (company role timestamp : String)
    (env : MergeEnv) (h : ∃ j ∈ td.jobs, matches_exact j company role = true) :
    (update_or_add_job td company role timestamp env).2 = "updated"
    ∧ (update_or_add_job td company role timestamp env).1.jobs.length = td.jobs.length := by
  obtain ⟨l, hl⟩ := update_first_isSome company role timestamp env.now td.jobs h
  unfold update_or_add_job
  rw [hl]
  exact ⟨rfl, update_first_length company role timestamp env.now td.jobs l hl⟩

/-- Witness for the amended C1: an exactly matching upsert against the
stored `acme-inc` record returns `"updated"` without inserting. -/
theorem claim1_upsert_exact_match_witness :
    (update_or_add_job acme_tracker "ACME-INC " "senior product manager"
       "2025-06-01T12:00:00Z" ⟨"0A1B", "2025-06-01T12:05:00Z", "2025-06-01"⟩).2 = "updated"
    ∧ (update_or_add_job acme_tracker "ACME-INC " "senior product manager"
       "2025-06-01T12:00:00Z" ⟨"0A1B", "2025-06-01T12:05:00Z", "2025-06-01"⟩).1.jobs.length
       = acme_tracker.jobs.length :=
  claim1_upsert_exact_match acme_tracker "ACME-INC " "senior product manager"
    "2025-06-01T12:00:00Z" ⟨"0A1B", "2025-06-01T12:05:00Z", "2025-06-01"⟩
    ⟨acme_job, by decide, by decide⟩

theorem string_data_append (a b : String) : (a ++ b).data = a.data ++ b.data := rfl

theorem getStrD_congr (j j' : Job) (k d : String) (h : getKey j k = getKey j' k) :
    getStrD j k d = getStrD j' k d := by
  unfold getStrD
  rw [h]

theorem apply_verification_frame (j : Job) (timestamp now : String) (k : String)
    (h1 : k ≠ "email_verified") (h2 : k ≠ "updated_at") (h3 : k ≠ "notes") :
    getKey (apply_verification j timestamp now) k = getKey j k := by
  simp only [apply_verification]
  split
  · rw [getKey_setKey_diff _ _ _ _ h2, getKey_setKey_diff _ _ _ _ h1]
  · rw [getKey_setKey_diff _ _ _ _ h3, getKey_setKey_diff _ _ _ _ h2,
      getKey_setKey_diff _ _ _ _ h1]

theorem apply_verification_email (j : Job) (timestamp now : String) :
    getKey (apply_verification j timestamp now) "email_verified" = some (JVal.bool true) := by
  simp only [apply_verification]
  split
  · rw [getKey_setKey_diff _ _ _ _ (by decide), getKey_setKey_same]
  · rw [getKey_setKey_diff _ _ _ _ (by decide), getKey_setKey_diff _ _ _ _ (by decide),
      getKey_setKey_same]

theorem apply_verification_updated (j : Job) (timestamp now : String) :
    getKey (apply_verification j timestamp now) "updated_at" = some (JVal.str now) := by
  simp only [apply_verification]
  split
  · rw [getKey_setKey_same]
  · rw [getKey_setKey_diff _ _ _ _ (by decide), getKey_setKey_same]

theorem apply_verification_notes (j : Job) (timestamp now : String) :
    getKey (apply_verification j timestamp now) "notes" = getKey j "notes"
    ∨ getKey (apply_verification j timestamp now) "notes"
        = some (JVal.str (pyStrip (getStrD j "notes" "" ++ verification_note timestamp))) := by
  have hn : getKey (setKey (setKey j "email_verified" (JVal.bool true)) "updated_at"
      (JVal.str now)) "notes" = getKey j "notes" := by
    rw [getKey_setKey_diff _ _ _ _ (by decide), getKey_setKey_diff _ _ _ _ (by decide)]
  simp only [apply_verification]
  split
  · left
    exact hn
  · right
    rw [getKey_setKey_same, getStrD_congr _ j "notes" "" hn]

/-- Claim C8 as amended: on a reconciliation match the only fields of the
matched record that change are `email_verified` (set true), `updated_at`,
and `notes` (the verification note is appended and the result trimmed of
surrounding whitespace — or `notes` is unchanged when the note is already
present); every other field and every other record is unchanged, the
settings and active tasks are untouched, and the upsert returns
`"updated"`. -/
theorem claim8_merge_frame (td : Tracker) (company role timestamp : String) (env : MergeEnv)
    (pre post : List Job) (j : Job)
    (hsplit : td.jobs = pre ++ j :: post)
    (hpre : ∀ j' ∈ pre, matches_exact j' company role = false)
    (hj : matches_exact j company role = true) :
    (update_or_add_job td company role timestamp env).2 = "updated"
    ∧ (update_or_add_job td company role timestamp env).1.jobs
        = pre ++ apply_verification j timestamp env.now :: post
    ∧ (update_or_add_job td company role timestamp env).1.settings = td.settings
    ∧ (update_or_add_job td company role timestamp env).1.activeTasks = td.activeTasks
    ∧ (∀ k, k ≠ "email_verified" → k ≠ "updated_at" → k ≠ "notes" →
        getKey (apply_verification j timestamp env.now) k = getKey j k)
    ∧ getKey (apply_verification j timestamp env.now) "email_verified" = some (JVal.bool true)
    ∧ getKey (apply_verification j timestamp env.now) "updated_at" = some (JVal.str env.now)
    ∧ (getKey (apply_verification j timestamp env.now) "notes" = getKey j "notes"
       ∨ getKey (apply_verification j timestamp env.now) "notes"
           = some (JVal.str (pyStrip (getStrD j "notes" "" ++ verification_note timestamp)))) := by
  have hu : update_first company role timestamp env.now td.jobs
      = some (pre ++ apply_verification j timestamp env.now :: post) := by
    rw [hsplit]
    exact update_first_split company role timestamp env.now pre post j hpre hj
  unfold update_or_add_job
  rw [hu]
  exact ⟨rfl, rfl, rfl, rfl,
    fun k h1 h2 h3 => apply_verification_frame j timestamp env.now k h1 h2 h3,
    apply_verification_email j timestamp env.now,
    apply_verification_updated j timestamp env.now,
    apply_verification_notes j timestamp env.now⟩

/-- Witness for the amended C8 on the `ws_notes_tracker` store. -/
theorem claim8_merge_frame_witness :
    (update_or_add_job ws_notes_tracker "Acme" "PM" "2025-01-02T10:00:00Z"
       ⟨"0A1B", "2025-01-02T10:05:00Z", "2025-01-02"⟩).2 = "updated"
    ∧ getKey (apply_verification ws_notes_job "2025-01-02T10:00:00Z" "2025-01-02T10:05:00Z")
        "company" = getKey ws_notes_job "company" :=
  have h := claim8_merge_frame ws_notes_tracker "Acme" "PM" "2025-01-02T10:00:00Z"
    ⟨"0A1B", "2025-01-02T10:05:00Z", "2025-01-02"⟩ [] [] ws_notes_job rfl
    (by simp) (by decide)
  ⟨h.1, h.2.2.2.2.1 "company" (by decide) (by decide) (by decide)⟩

/-- Claim C8 counterexample: the claimed "all prior notes text is
preserved" fails: on a record whose notes begin with whitespace the
`.strip()` of the concatenation drops that whitespace, so the prior notes
string is no longer contained in the updated notes. -/
theorem claim8_counterexample :
    (update_or_add_job ws_notes_tracker "Acme" "PM" "2025-01-02T10:00:00Z"
       ⟨"0A1B", "2025-01-02T10:05:00Z", "2025-01-02"⟩).2 = "updated"
    ∧ getKey ((update_or_add_job ws_notes_tracker "Acme" "PM" "2025-01-02T10:00:00Z"
       ⟨"0A1B", "2025-01-02T10:05:00Z", "2025-01-02"⟩).1.jobs.headD []) "notes"
        = some (JVal.str (pyStrip (" x" ++ verification_note "2025-01-02T10:00:00Z")))
    ∧ strIn " x" (pyStrip (" x" ++ verification_note "2025-01-02T10:00:00Z")) = false := by
  decide

/-- Claim C10: a record created by the no-match
branch of the reconciliation merge is inserted at the front of the jobs list with `jobUrl = None`,
`email_verified = True`, `status = "applied"` and notes beginning with the
auto-added provenance marker, and no URL can ever match it under the
exact-URL rule used by `complete_task`. -/
theorem claim10_merge_added (td : Tracker) (company role timestamp : String) (env : MergeEnv)
    (h : ∀ j ∈ td.jobs, matches_exact j company role = false) :
    (update_or_add_job td company role timestamp env).2 = "added"
    ∧ (update_or_add_job td company role timestamp env).1.jobs
        = sync_new_job company role timestamp env :: td.jobs
    ∧ getKey (sync_new_job company role timestamp env) "jobUrl" = some JVal.null
    ∧ getKey (sync_new_job company role timestamp env) "email_verified"
        = some (JVal.bool true)
    ∧ getKey (sync_new_job company role timestamp env) "status" = some (JVal.str "applied")
    ∧ ("Auto-added from AgentMail confirmation." : String).data <+:
        (getStrD (sync_new_job company role timestamp env) "notes" "").data
    ∧ (∀ url : String, url_in_jobs [sync_new_job company role timestamp env] url = false) := by
  have hu : update_first company role timestamp env.now td.jobs = none :=
    update_first_none company role timestamp env.now td.jobs h
  have hurl : getKey (sync_new_job company role timestamp env) "jobUrl" = some JVal.null := rfl
  have hnotes : getStrD (sync_new_job company role timestamp env) "notes" ""
      = "Auto-added from AgentMail confirmation. Email verified on "
        ++ env.dateApplied ++ "." := rfl
  refine ⟨?_, ?_, hurl, rfl, rfl, ?_, ?_⟩
  · unfold update_or_add_job
    rw [hu]
  · unfold update_or_add_job
    rw [hu]
  · rw [hnotes]
    have h1 : ("Auto-added from AgentMail confirmation." : String).data <+:
        ("Auto-added from AgentMail confirmation. Email verified on " : String).data := by
      decide
    refine h1.trans ?_
    rw [string_data_append, string_data_append, List.append_assoc]
    exact List.prefix_append _ _
  · intro url
    simp [url_in_jobs, hurl]

/-- Witness for C10 on the empty store. -/
theorem claim10_merge_added_witness :
    (update_or_add_job ⟨[], none, []⟩ "Globex" "PM" "2025-05-05T09:00:00Z"
       ⟨"0A1B", "2025-05-05T09:10:00Z", "2025-05-05"⟩).2 = "added"
    ∧ getKey (sync_new_job "Globex" "PM" "2025-05-05T09:00:00Z"
       ⟨"0A1B", "2025-05-05T09:10:00Z", "2025-05-05"⟩) "jobUrl" = some JVal.null :=
  have h := claim10_merge_added ⟨[], none, []⟩ "Globex" "PM" "2025-05-05T09:00:00Z"
    ⟨"0A1B", "2025-05-05T09:10:00Z", "2025-05-05"⟩ (by simp)
  ⟨h.1, h.2.2.1⟩

theorem url_in_jobs_iff (jobs : List Job) (u : String) :
    url_in_jobs jobs u = true
      ↔ ∃ j ∈ jobs, (getKey j "jobUrl").getD (JVal.str "") = JVal.str u := by
  simp [url_in_jobs]

theorem complete_task_run (td : Tracker) (taskId company role jobUrl : String)
    (ar : Option String) (cost it ot : Int) (ev : Bool) (env : CompleteEnv) (ioOk : Bool) :
    (complete_task td taskId company role jobUrl ar cost it ot ev env ioOk).2 = true
    ∧ (url_in_jobs td.jobs jobUrl = true →
        (complete_task td taskId company role jobUrl ar cost it ot ev env ioOk).1.jobs
          = td.jobs)
    ∧ (url_in_jobs td.jobs jobUrl = false →
        (complete_task td taskId company role jobUrl ar cost it ot ev env ioOk).1.jobs
          = complete_new_job taskId company role jobUrl ar cost it ot ev env :: td.jobs) := by
  cases hu : url_in_jobs td.jobs jobUrl with
  | true =>
    refine ⟨?_, fun _ => ?_, fun hc => by simp [hu] at hc⟩ <;>
      simp [complete_task, apply_ite Tracker.jobs, hu]
  | false =>
    refine ⟨?_, fun hc => by simp [hu] at hc, fun _ => ?_⟩ <;>
      simp [complete_task, apply_ite Tracker.jobs, hu]

/-- Claim C3: the exact URL match is authoritative: when some record
already carries the supplied `job_url`, `complete_task` inserts nothing
(whatever company or role strings are supplied), and a second
`complete_task` call with the same URL leaves the jobs list exactly as the
first call left it, returning `True`. -/
theorem claim3_url_precedence (td : Tracker) (taskId company role jobUrl : String)
    (ar : Option String) (cost it ot : Int) (ev : Bool) (env : CompleteEnv) (ioOk : Bool) :
    ((∃ j ∈ td.jobs, (getKey j "jobUrl").getD (JVal.str "") = JVal.str jobUrl) →
       (complete_task td taskId company role jobUrl ar cost it ot ev env ioOk).1.jobs = td.jobs
       ∧ (complete_task td taskId company role jobUrl ar cost it ot ev env ioOk).2 = true)
    ∧ (∀ (taskId2 company2 role2 : String) (ar2 : Option String) (cost2 it2 ot2 : Int)
        (ev2 : Bool) (env2 : CompleteEnv) (ioOk2 : Bool),
        (complete_task (complete_task td taskId company role jobUrl ar cost it ot ev env ioOk).1
            taskId2 company2 role2 jobUrl ar2 cost2 it2 ot2 ev2 env2 ioOk2).1.jobs
          = (complete_task td taskId company role jobUrl ar cost it ot ev env ioOk).1.jobs
        ∧ (complete_task (complete_task td taskId company role jobUrl ar cost it ot ev env
            ioOk).1 taskId2 company2 role2 jobUrl ar2 cost2 it2 ot2 ev2 env2 ioOk2).2
          = true) := by
  have hrun := complete_task_run td taskId company role jobUrl ar cost it ot ev env ioOk
  constructor
  · intro hex
    have hu : url_in_jobs td.jobs jobUrl = true := (url_in_jobs_iff td.jobs jobUrl).mpr hex
    exact ⟨hrun.2.1 hu, hrun.1⟩
  · intro taskId2 company2 role2 ar2 cost2 it2 ot2 ev2 env2 ioOk2
    have hin : url_in_jobs
        (complete_task td taskId company role jobUrl ar cost it ot ev env ioOk).1.jobs
        jobUrl = true := by
      cases hu : url_in_jobs td.jobs jobUrl with
      | true => rw [hrun.2.1 hu]; exact hu
      | false =>
        rw [hrun.2.2 hu, url_in_jobs_iff]
        refine ⟨complete_new_job taskId company role jobUrl ar cost it ot ev env,
          List.mem_cons_self _ _, ?_⟩
        rw [show getKey (complete_new_job taskId company role jobUrl ar cost it ot ev env)
          "jobUrl" = some (JVal.str jobUrl) from rfl]
        rfl
    have hrun2 := complete_task_run
      (complete_task td taskId company role jobUrl ar cost it ot ev env ioOk).1
      taskId2 company2 role2 jobUrl ar2 cost2 it2 ot2 ev2 env2 ioOk2
    exact ⟨hrun2.2.1 hin, hrun2.1⟩

/-- Witness for C3: completing against a store already holding the URL
changes no job, even though company and role differ from the stored ones. -/
theorem claim3_url_precedence_witness :
    (complete_task url_tracker "T1" "Different Co" "Other Role" "https://x.com/1" none 0 0 0
       false ⟨"0A1B", "2025-05-05", "2025-05-05T09:10:00Z"⟩ true).1.jobs = url_tracker.jobs
    ∧ (complete_task url_tracker "T1" "Different Co" "Other Role" "https://x.com/1" none 0 0 0
       false ⟨"0A1B", "2025-05-05", "2025-05-05T09:10:00Z"⟩ true).2 = true :=
  (claim3_url_precedence url_tracker "T1" "Different Co" "Other Role" "https://x.com/1" none
      0 0 0 false ⟨"0A1B", "2025-05-05", "2025-05-05T09:10:00Z"⟩ true).1
    ⟨url_job, by decide, by decide⟩

theorem transform_fields_nodup (j : Job) (d : String) :
    ((transform_fields j d).map Prod.fst).Nodup := by
  cases h : legacy_status j <;> simp [transform_fields, h]

theorem transform_fields_fst_mem (j : Job) (d : String) (p : String × JVal)
    (hp : p ∈ transform_fields j d) :
    p.1 = "status" ∨ p.1 ∈ migration_written_fields := by
  cases h : legacy_status j with
  | true =>
    simp [transform_fields, h] at hp
    rcases hp with rfl | rfl | rfl | rfl | rfl | rfl | rfl | rfl | rfl | rfl <;>
      simp [migration_written_fields]
  | false =>
    simp [transform_fields, h] at hp
    rcases hp with rfl | rfl | rfl | rfl | rfl | rfl | rfl | rfl | rfl <;>
      simp [migration_written_fields]

theorem getKey_transform_job_other (j : Job) (d : String) (k : String)
    (hks : k ≠ "status") (hkm : k ∉ migration_written_fields) :
    getKey (transform_job j d) k = getKey j k := by
  apply getKey_setKeys_not_mem
  intro p hp hpk
  rcases transform_fields_fst_mem j d p hp with h | h
  · exact hks (hpk ▸ h)
  · exact hkm (hpk ▸ h)

theorem getKey_transform_job_status_legacy (j : Job) (d : String)
    (h : legacy_status j = true) :
    getKey (transform_job j d) "status" = some (JVal.str "interviewing") := by
  apply getKey_setKeys_mem _ _ _ _ (transform_fields_nodup j d)
  simp [transform_fields, h]

theorem getKey_transform_job_stage_legacy (j : Job) (d : String)
    (h : legacy_status j = true) :
    getKey (transform_job j d) "interview_stage"
      = some ((getKey j "status").getD JVal.null) := by
  apply getKey_setKeys_mem _ _ _ _ (transform_fields_nodup j d)
  simp [transform_fields, h]

theorem getKey_transform_job_status_nonlegacy (j : Job) (d : String)
    (h : legacy_status j = false) :
    getKey (transform_job j d) "status" = getKey j "status" := by
  apply getKey_setKeys_not_mem
  intro p hp hpk
  simp [transform_fields, h] at hp
  rcases hp with rfl | rfl | rfl | rfl | rfl | rfl | rfl | rfl | rfl <;> simp at hpk

theorem transform_fields_stable (j : Job) (d : String) (hL : legacy_status j = false) :
    transform_fields (transform_job j d) d = transform_fields j d := by
  have hs : getKey (transform_job j d) "status" = getKey j "status" :=
    getKey_transform_job_status_nonlegacy j d hL
  have hda : getKey (transform_job j d) "dateApplied" = getKey j "dateApplied" :=
    getKey_transform_job_other j d "dateApplied" (by decide) (by decide)
  have hla : getKey (transform_job j d) "lastActivityDate" = getKey j "lastActivityDate" :=
    getKey_transform_job_other j d "lastActivityDate" (by decide) (by decide)
  have hno : getKey (transform_job j d) "notes" = getKey j "notes" :=
    getKey_transform_job_other j d "notes" (by decide) (by decide)
  have hL2 : legacy_status (transform_job j d) = legacy_status j := by
    unfold legacy_status
    rw [hs]
  have hda2 : migrate_date_applied (transform_job j d) d = migrate_date_applied j d := by
    unfold migrate_date_applied
    rw [hda]
  have hla2 : migrate_last_activity (transform_job j d) d = migrate_last_activity j d := by
    unfold migrate_last_activity
    rw [hla, hda2]
  have hev2 : migrate_email_verified (transform_job j d) = migrate_email_verified j := by
    unfold migrate_email_verified
    rw [getStrD_congr _ j "notes" "" hno]
  unfold transform_fields
  rw [hL2, hda2, hla2, hev2, hs]

/-- Claim C5 as amended: re-running the per-record transform is the
identity on every record whose status is a string other than the three
legacy interview sub-statuses (same-day re-run); for records in a legacy
interview sub-status the second application is **not** the identity: it
resets `interview_stage` to null (see the counterexample). -/
theorem claim5_transform_rerun_stable (j : Job) (d s : String)
    (hs : getKey j "status" = some (JVal.str s))
    (hnl : s ∉ legacy_interview_statuses) :
    transform_job (transform_job j d) d = transform_job j d := by
  have hL : legacy_status j = false := by
    unfold legacy_status
    rw [hs]
    simp [hnl]
  show setKeys (transform_job j d) (transform_fields (transform_job j d) d)
    = transform_job j d
  rw [transform_fields_stable j d hL]
  apply setKeys_fix
  intro p hp
  exact getKey_setKeys_mem _ _ _ _ (transform_fields_nodup j d) hp

/-- Witness for the amended C5 on a plain `applied` record. -/
theorem claim5_transform_rerun_stable_witness :
    transform_job (transform_job applied_job "2025-03-03") "2025-03-03"
      = transform_job applied_job "2025-03-03" :=
  claim5_transform_rerun_stable applied_job "2025-03-03" "applied" (by decide) (by decide)

/-- Claim C5 counterexample: the transform is not idempotent on a record
in a legacy interview sub-status: the first run moves `recruiter_screen`
into `interview_stage`, the second run resets `interview_stage` to null
because the status is now `interviewing`. -/
theorem claim5_counterexample :
    transform_job (transform_job recruiter_job "2025-03-03") "2025-03-03"
      ≠ transform_job recruiter_job "2025-03-03"
    ∧ getKey (transform_job recruiter_job "2025-03-03") "interview_stage"
        = some (JVal.str "recruiter_screen")
    ∧ getKey (transform_job (transform_job recruiter_job "2025-03-03") "2025-03-03")
        "interview_stage" = some JVal.null := by
  decide

theorem legacy_record_parts (j : Job) (h : legacy_record j = true) :
    (∃ s, getKey j "status" = some (JVal.str s) ∧ s ≠ "interviewing")
    ∧ (∀ k ∈ migration_written_fields, getKey j k = none) := by
  unfold legacy_record at h
  simp only [Bool.and_eq_true] at h
  obtain ⟨⟨⟨⟨h1, h2⟩, _⟩, _⟩, _⟩ := h
  constructor
  · cases hget : getKey j "status" with
    | none => rw [hget] at h1; simp at h1
    | some v =>
      cases v <;> rw [hget] at h1 <;> simp at h1
      case str s => exact ⟨s, rfl, h1⟩
  · intro k hk
    rw [List.all_eq_true] at h2
    have := h2 k hk
    simpa [Option.isNone_iff_eq_none] using this

/-- Claim C4 as amended: migrating a store of legacy-schema records (a
string status other than `interviewing`, no new-schema field present yet,
string-or-absent date and notes fields) preserves the record count, maps
each legacy interview sub-status to `status="interviewing"` with
`interview_stage` holding the legacy value, leaves no `interviewing`
record without a stage, and preserves the value of every input field somewhere
in the transformed record. (Without the no-new-schema-field hypothesis
the value-preservation part fails: see the counterexample.) -/
theorem claim4_migration_round_trip (td : Tracker) (d : String)
    (h : ∀ j ∈ td.jobs, legacy_record j = true) :
    (migrate_data td d).jobs.length = td.jobs.length
    ∧ (∀ j ∈ td.jobs, ∀ s, getKey j "status" = some (JVal.str s) →
        s ∈ legacy_interview_statuses →
        getKey (transform_job j d) "status" = some (JVal.str "interviewing")
        ∧ getKey (transform_job j d) "interview_stage" = some (JVal.str s))
    ∧ (∀ j' ∈ (migrate_data td d).jobs,
        getKey j' "status" = some (JVal.str "interviewing") →
        ∃ s, getKey j' "interview_stage" = some (JVal.str s)
          ∧ s ∈ legacy_interview_statuses)
    ∧ (∀ j ∈ td.jobs, ∀ k v, getKey j k = some v →
        ∃ k', getKey (transform_job j d) k' = some v) := by
  refine ⟨by simp [migrate_data], ?_, ?_, ?_⟩
  · intro j hj s hsv hsl
    have hL : legacy_status j = true := by
      unfold legacy_status
      rw [hsv]
      simp [hsl]
    refine ⟨getKey_transform_job_status_legacy j d hL, ?_⟩
    rw [getKey_transform_job_stage_legacy j d hL, hsv]
    rfl
  · intro j' hj' hi
    simp only [migrate_data, List.mem_map] at hj'
    obtain ⟨j, hj, rfl⟩ := hj'
    obtain ⟨⟨s0, hst0, hni⟩, _⟩ := legacy_record_parts j (h j hj)
    cases hL : legacy_status j with
    | true =>
      refine ⟨s0, ?_, ?_⟩
      · rw [getKey_transform_job_stage_legacy j d hL, hst0]
        rfl
      · unfold legacy_status at hL
        rw [hst0] at hL
        simpa using hL
    | false =>
      rw [getKey_transform_job_status_nonlegacy j d hL, hst0] at hi
      exact absurd (by injection hi with h'; injection h') hni
  · intro j hj k v hkv
    obtain ⟨⟨s0, hst0, hni⟩, hnone⟩ := legacy_record_parts j (h j hj)
    by_cases hks : k = "status"
    · subst hks
      rw [hst0] at hkv
      injection hkv with hv
      cases hL : legacy_status j with
      | true =>
        refine ⟨"interview_stage", ?_⟩
        rw [getKey_transform_job_stage_legacy j d hL, hst0, hv]
        rfl
      | false =>
        refine ⟨"status", ?_⟩
        rw [getKey_transform_job_status_nonlegacy j d hL, hst0, hv]
    · by_cases hkm : k ∈ migration_written_fields
      · rw [hnone k hkm] at hkv
        exact Option.noConfusion hkv
      · exact ⟨k, by rw [getKey_transform_job_other j d k hks hkm]; exact hkv⟩

/-- Witness for the amended C4 on a one-record legacy store. -/
theorem claim4_migration_round_trip_witness :
    (migrate_data panel_tracker "2025-03-03").jobs.length = panel_tracker.jobs.length
    ∧ getKey (transform_job panel_job "2025-03-03") "status"
        = some (JVal.str "interviewing")
    ∧ getKey (transform_job panel_job "2025-03-03") "interview_stage"
        = some (JVal.str "panel_onsite") :=
  have h := claim4_migration_round_trip panel_tracker "2025-03-03" (by decide)
  have h2 := h.2.1 panel_job (by decide) "panel_onsite" (by decide) (by decide)
  ⟨h.1, h2.1, h2.2⟩

/-- Claim C4 counterexample: as literally stated (hypothesis only that no
record is already `interviewing`), field values are not always preserved:
a record already carrying an `interview_stage` value has that value
overwritten with null, and it survives nowhere in the output record. -/
theorem claim4_counterexample :
    getKey stage_field_job "status" = some (JVal.str "applied")
    ∧ getKey stage_field_job "interview_stage" = some (JVal.str "stage-x")
    ∧ (migrate_data stage_field_tracker "2025-02-02").jobs.all
        (fun j' => j'.all (fun p => decide (p.2 ≠ JVal.str "stage-x"))) = true := by
  decide

theorem sync_step_skip (er : String → String → String) (env : Nat → MergeEnv)
    (P : List String) (st : PassState) (t : MailThread)
    (h : t.thread_id ∈ P ∨ is_confirmation_email t.subject t.preview = false) :
    sync_step er env P st t = st := by
  unfold sync_step
  rcases h with h | h
  · rw [if_pos h]
  · by_cases hm : t.thread_id ∈ P
    · rw [if_pos hm]
    · rw [if_neg hm, if_pos (by simp [h])]

theorem sync_fold_skip (er : String → String → String) (env : Nat → MergeEnv)
    (P : List String) (threads : List MailThread) (st : PassState)
    (h : ∀ t ∈ threads, t.thread_id ∈ P ∨ is_confirmation_email t.subject t.preview = false) :
    threads.foldl (sync_step er env P) st = st := by
  induction threads generalizing st with
  | nil => rfl
  | cons t rest ih =>
    rw [List.foldl_cons, sync_step_skip er env P st t (h t (List.mem_cons_self t rest))]
    exact ih st (fun t' ht' => h t' (List.mem_cons_of_mem t ht'))

theorem sync_step_newThreads_mono (er : String → String → String) (env : Nat → MergeEnv)
    (P : List String) (st : PassState) (t : MailThread) :
    st.newThreads <+: (sync_step er env P st t).newThreads := by
  unfold sync_step
  by_cases h1 : t.thread_id ∈ P
  · rw [if_pos h1]
  · rw [if_neg h1]
    by_cases h2 : ¬ is_confirmation_email t.subject t.preview = true
    · rw [if_pos h2]
    · rw [if_neg h2]
      exact List.prefix_append _ _

theorem sync_fold_newThreads_mono (er : String → String → String) (env : Nat → MergeEnv)
    (P : List String) (threads : List MailThread) (st : PassState) :
    st.newThreads <+: (threads.foldl (sync_step er env P) st).newThreads := by
  induction threads generalizing st with
  | nil => exact List.prefix_refl _
  | cons t rest ih =>
    rw [List.foldl_cons]
    exact (sync_step_newThreads_mono er env P st t).trans (ih _)

theorem sync_fold_added_len (er : String → String → String) (env : Nat → MergeEnv)
    (P : List String) (threads : List MailThread) (st : PassState)
    (h : st.added = st.newThreads.length) :
    (threads.foldl (sync_step er env P) st).added
      = (threads.foldl (sync_step er env P) st).newThreads.length := by
  induction threads generalizing st with
  | nil => exact h
  | cons t rest ih =>
    rw [List.foldl_cons]
    apply ih
    unfold sync_step
    by_cases h1 : t.thread_id ∈ P
    · rw [if_pos h1]
      exact h
    · rw [if_neg h1]
      by_cases h2 : ¬ is_confirmation_email t.subject t.preview = true
      · rw [if_pos h2]
        exact h
      · rw [if_neg h2]
        simp [h]

theorem sync_fold_conf_mem (er : String → String → String) (env : Nat → MergeEnv)
    (P : List String) (threads : List MailThread) :
    ∀ (st : PassState), ∀ t ∈ threads,
      is_confirmation_email t.subject t.preview = true →
      t.thread_id ∈ P ∨ t.thread_id ∈ (threads.foldl (sync_step er env P) st).newThreads := by
  induction threads with
  | nil =>
    intro st t ht
    cases ht
  | cons t0 rest ih =>
    intro st t ht hconf
    rw [List.foldl_cons]
    rcases List.mem_cons.mp ht with rfl | hmem
    · by_cases h1 : t.thread_id ∈ P
      · exact Or.inl h1
      · right
        have hstep : t.thread_id ∈ (sync_step er env P st t).newThreads := by
          unfold sync_step
          rw [if_neg h1, if_neg (by simp [hconf])]
          exact List.mem_append.mpr (Or.inr (List.mem_singleton.mpr rfl))
        exact (sync_fold_newThreads_mono er env P rest _).subset hstep
    · exact ih _ t hmem hconf

theorem sync_pass_eq (er : String → String → String) (env : Nat → MergeEnv)
    (ls : String) (threads : List MailThread) (disk : Tracker) (P : List String) :
    sync_agentmail_to_tracker er env ls threads disk P =
      ⟨if (threads.foldl (sync_step er env P) ⟨disk, [], 0⟩).added > 0
          then (threads.foldl (sync_step er env P) ⟨disk, [], 0⟩).tracker
          else if (threads.foldl (sync_step er env P) ⟨disk, [], 0⟩).newThreads = []
            then disk else set_last_email_sync disk ls,
       if (threads.foldl (sync_step er env P) ⟨disk, [], 0⟩).newThreads = []
          then P else P ++ (threads.foldl (sync_step er env P) ⟨disk, [], 0⟩).newThreads,
       (threads.foldl (sync_step er env P) ⟨disk, [], 0⟩).added⟩ := rfl

theorem sync_pass_noop (er : String → String → String) (env : Nat → MergeEnv)
    (ls : String) (threads : List MailThread) (disk : Tracker) (P : List String)
    (h : ∀ t ∈ threads, t.thread_id ∈ P ∨ is_confirmation_email t.subject t.preview = false) :
    sync_agentmail_to_tracker er env ls threads disk P = ⟨disk, P, 0⟩ := by
  rw [sync_pass_eq, sync_fold_skip er env P threads ⟨disk, [], 0⟩ h]
  rfl

/-- Claim C2: one reconciliation pass is idempotent: re-running the pass
on the same thread list against the state the first pass produced leaves
the store content and the processed-thread set exactly as the first pass
left them, whatever fresh ids, timestamps or role extraction the second
pass would use. -/
theorem claim2_sync_idempotent (er er2 : String → String → String)
    (env env2 : Nat → MergeEnv) (ls ls2 : String) (threads : List MailThread)
    (disk : Tracker) (processed : List String) :
    (sync_agentmail_to_tracker er2 env2 ls2 threads
        (sync_agentmail_to_tracker er env ls threads disk processed).tracker
        (sync_agentmail_to_tracker er env ls threads disk processed).processed).tracker
      = (sync_agentmail_to_tracker er env ls threads disk processed).tracker
    ∧ (sync_agentmail_to_tracker er2 env2 ls2 threads
        (sync_agentmail_to_tracker er env ls threads disk processed).tracker
        (sync_agentmail_to_tracker er env ls threads disk processed).processed).processed
      = (sync_agentmail_to_tracker er env ls threads disk processed).processed := by
  have hr1 := sync_pass_eq er env ls threads disk processed
  set st1 := threads.foldl (sync_step er env processed) ⟨disk, [], 0⟩ with hst1
  have hlen : st1.added = st1.newThreads.length :=
    sync_fold_added_len er env processed threads ⟨disk, [], 0⟩ rfl
  have hconf := sync_fold_conf_mem er env processed threads ⟨disk, [], 0⟩
  by_cases hN : st1.newThreads = []
  · have hadd : ¬ st1.added > 0 := by
      rw [hlen, hN]
      simp
    have hr1' : sync_agentmail_to_tracker er env ls threads disk processed
        = ⟨disk, processed, st1.added⟩ := by
      rw [hr1]
      simp [hN, hadd]
    have hskip : ∀ t ∈ threads,
        t.thread_id ∈ processed ∨ is_confirmation_email t.subject t.preview = false := by
      intro t ht
      by_cases hc : is_confirmation_email t.subject t.preview = true
      · rcases hconf t ht hc with h | h
        · exact Or.inl h
        · rw [hN] at h
          cases h
      · exact Or.inr ((Bool.not_eq_true _) ▸ hc)
    simp only [hr1']
    rw [sync_pass_noop er2 env2 ls2 threads disk processed hskip]
    exact ⟨rfl, rfl⟩
  · have hlpos : st1.added > 0 := by
      rw [hlen]
      exact List.length_pos.mpr hN
    have hr1' : sync_agentmail_to_tracker er env ls threads disk processed
        = ⟨st1.tracker, processed ++ st1.newThreads, st1.added⟩ := by
      rw [hr1]
      simp [hN, hlpos]
    have hskip : ∀ t ∈ threads,
        t.thread_id ∈ processed ++ st1.newThreads
        ∨ is_confirmation_email t.subject t.preview = false := by
      intro t ht
      by_cases hc : is_confirmation_email t.subject t.preview = true
      · rcases hconf t ht hc with h | h
        · exact Or.inl (List.mem_append.mpr (Or.inl h))
        · exact Or.inl (List.mem_append.mpr (Or.inr h))
      · exact Or.inr ((Bool.not_eq_true _) ▸ hc)
    simp only [hr1']
    rw [sync_pass_noop er2 env2 ls2 threads st1.tracker (processed ++ st1.newThreads) hskip]
    exact ⟨rfl, rfl⟩

/-- Claim C9 as amended: every fetched thread not already in the
processed set that is classified as a confirmation email gets its
identifier added to `processed_thread_ids`, whatever the match outcome of
its merge; threads classified as non-confirmations are **not** added (see
the counterexample). -/
theorem claim9_confirmation_marked (er : String → String → String) (env : Nat → MergeEnv)
    (ls : String) (threads : List MailThread) (disk : Tracker) (processed : List String) :
    ∀ t ∈ threads, t.thread_id ∉ processed →
      is_confirmation_email t.subject t.preview = true →
      t.thread_id ∈ (sync_agentmail_to_tracker er env ls threads disk processed).processed := by
  intro t ht hnp hc
  rcases sync_fold_conf_mem er env processed threads ⟨disk, [], 0⟩ t ht hc with h | h
  · exact absurd h hnp
  · have hN : (threads.foldl (sync_step er env processed) ⟨disk, [], 0⟩).newThreads ≠ [] := by
      intro he
      rw [he] at h
      cases h
    rw [sync_pass_eq]
    simp only [if_neg hN]
    exact List.mem_append.mpr (Or.inr h)

/-- Witness for the amended C9: the id of a confirmation thread lands in the
processed set. -/
theorem claim9_confirmation_marked_witness :
    "t2" ∈ (sync_agentmail_to_tracker default_role_extractor sample_env
      "2025-05-05T09:10:00Z" [confirm_thread] ⟨[], none, []⟩ []).processed :=
  claim9_confirmation_marked default_role_extractor sample_env "2025-05-05T09:10:00Z"
    [confirm_thread] ⟨[], none, []⟩ [] confirm_thread (by decide) (by decide) (by decide)

/-- Claim C9 counterexample: a fetched, previously unprocessed thread
that is not classified as a confirmation email is evaluated but its
identifier is **not** added to the processed set (the source skips it
before the `new_threads.append`), contradicting the claimed "regardless
of its classification". -/
theorem claim9_counterexample :
    is_confirmation_email chatter_thread.subject chatter_thread.preview = false
    ∧ (sync_agentmail_to_tracker default_role_extractor sample_env
        "2025-05-05T09:10:00Z" [chatter_thread] ⟨[], none, []⟩ []).processed = [] := by
  decide

end Applicator
